import Mathlib

/-!
Verification of the resilient orchestration core of the legal-content system
(`backend/app`): the quality gate (`services/quality_checker.py`,
`services/article_generator.py`), the generation orchestrator
(`services/article_service.py`), the document chunker and anonymizer
(`services/anonymizer.py`), the JSON repair parser (`utils/json_repair.py`),
the batch counters (`services/batch_service.py`, `models/batch.py`), the
batch worker (`services/batch_worker.py`) and the verdict state handling
(`services/analysis_service.py`, `services/verdict_service.py`,
`models/verdict.py`).

Python strings are modelled as Lean `String` / `List Char`; Python ints as
`Int` (or `Nat` for sizes and indices); functions that can raise return
`Except`.  `int(x / y)` on non-negative ints is integer division.  Database
commits are modelled by explicit state passing on records; external
collaborators (the generative-API client, the WordPress client, the link
enhancer) are parameters, mirroring the fact that they are injected
dependencies in the source.
-/

deriving instance DecidableEq for Except

/-! ## Python string helpers -/

/-- Python's `\s` character class (ASCII repertoire; the source texts use
Hebrew letters and ASCII, and no exotic Unicode spaces). -/
def isPySpace (c : Char) : Bool :=
  c = ' ' ∨ c = '\t' ∨ c = '\n' ∨ c = '\r' ∨ c = '\x0c' ∨ c = '\x0b'

/-- Python's `str.strip()` on a character list. -/
def stripL (s : List Char) : List Char :=
  ((s.dropWhile isPySpace).reverse.dropWhile isPySpace).reverse

/-- Python's `str.strip()` on a `String`. -/
def stripPy (s : String) : String :=
  String.mk (stripL s.data)

/-! ## QualityChecker (`services/quality_checker.py`)

`QualityCheck` and the aggregation part of `QualityChecker.check_all`
(lines 113-156) are embedded concretely, as is the privacy battery
`_check_privacy` (below).  The four per-category deterministic batteries
`_check_content`, `_check_seo`, `_check_readability`, `_check_eeat`
(lines 158-538) are modelled as an injected `CheckBattery`: each of them
returns a list of `QualityCheck`s tagged with its own category string, and
the claims under verification depend only on those category tags and scores,
not on the internal scoring formulas. -/

/-- `QualityCheck` dataclass (severity is one of "info", "warning", "error";
category one of "content", "seo", "readability", "eeat", "privacy"). -/
structure QualityCheck where
  name : String
  passed : Bool
  score : Int
  message : String
  category : String
  severity : String
deriving Repr, DecidableEq

/-- `QualityReport` dataclass. -/
structure QualityReport where
  checks : List QualityCheck
  contentScore : Int
  seoScore : Int
  readabilityScore : Int
  eeatScore : Int
  overallScore : Int
  level : String
  allPassed : Bool
  readyToPublish : Bool
  criticalIssues : List String
  warnings : List String
  suggestions : List String
deriving Repr, DecidableEq

/-- `QualityChecker._calculate_category_score`: `int(sum(scores) / len)`,
0 for an empty category (`Int.tdiv` truncates toward zero exactly as
Python's `int()` does on the float ratio; exact for the score values the
checker produces). -/
def calculateCategoryScore (checks : List QualityCheck) : Int :=
  if checks.length = 0 then 0
  else Int.tdiv (checks.map (·.score)).sum (checks.length : Int)

/-- Weighted overall score, `check_all` lines 124-129:
`int(content*0.30 + seo*0.30 + readability*0.20 + eeat*0.20)`, modelled with
exact rational weights (30/100 etc.); Python's binary-float evaluation of
the same expression agrees on all inputs relevant here. -/
def overallWeighted (content seo readability eeat : Int) : Int :=
  Int.tdiv (content * 30 + seo * 30 + readability * 20 + eeat * 20) 100

/-- `QualityChecker._determine_level`. -/
def determineLevel (score : Int) : String :=
  if score ≥ 85 then "excellent"
  else if score ≥ 70 then "good"
  else if score ≥ 50 then "needs_improvement"
  else "poor"

/-- The aggregation tail of `QualityChecker.check_all` (lines 113-156),
given the concatenated list of all checks. -/
def aggregateChecks (checks : List QualityCheck) : QualityReport :=
  let contentChecks := checks.filter (·.category = "content")
  let seoChecks := checks.filter (·.category = "seo")
  let readabilityChecks := checks.filter (·.category = "readability")
  let eeatChecks := checks.filter (·.category = "eeat")
  let contentScore := calculateCategoryScore contentChecks
  let seoScore := calculateCategoryScore seoChecks
  let readabilityScore := calculateCategoryScore readabilityChecks
  let eeatScore := calculateCategoryScore eeatChecks
  let overallScore := overallWeighted contentScore seoScore readabilityScore eeatScore
  let criticalIssues :=
    (checks.filter (fun c => c.severity = "error" ∧ ¬ c.passed)).map (·.message)
  let warnings :=
    (checks.filter (fun c => c.severity = "warning" ∧ ¬ c.passed)).map (·.message)
  let suggestions :=
    (checks.filter (fun c => c.severity = "info" ∧ ¬ c.passed)).map (·.message)
  let allPassedErrors := (checks.filter (·.severity = "error")).all (·.passed)
  { checks := checks
    contentScore := contentScore
    seoScore := seoScore
    readabilityScore := readabilityScore
    eeatScore := eeatScore
    overallScore := overallScore
    level := determineLevel overallScore
    allPassed := checks.all (·.passed)
    readyToPublish := allPassedErrors ∧ overallScore ≥ 95
    criticalIssues := criticalIssues
    warnings := warnings
    suggestions := suggestions }

/-! ## Quality gate of the generation loop (`services/article_service.py`)

`generate_article_from_verdict` lines 248-249 and 311-318: the per-category
scores dictionary and the gate decision. -/

/-- The five-score dictionary returned by
`ArticleGenerator.calculate_scores` / `ArticleService.score_article`. -/
structure Scores where
  contentScore : Int
  seoScore : Int
  readabilityScore : Int
  eeatScore : Int
  overallScore : Int
deriving Repr, DecidableEq

/-- `MIN_SCORE_THRESHOLD = 80` (article_service.py line 249). -/
def minScoreThreshold : Int := 80

/-- `MAX_GENERATION_ATTEMPTS = 3` (article_service.py line 248). -/
def maxGenerationAttempts : Nat := 3

/-- Gate decision, article_service.py lines 312-317:
`all_passed = content_ok and seo_ok and readability_ok and eeat_ok` where
each `*_ok` is `score >= MIN_SCORE_THRESHOLD`. -/
def gateAllPassed (s : Scores) : Bool :=
  (s.contentScore ≥ minScoreThreshold) ∧ (s.seoScore ≥ minScoreThreshold) ∧
    (s.readabilityScore ≥ minScoreThreshold) ∧ (s.eeatScore ≥ minScoreThreshold)

/-! ## PII detection (`QualityChecker.PII_PATTERNS` and `_check_privacy`)

The seven `PII_PATTERNS` regexes are sequences of character-class
repetitions and literals; they are embedded as token lists and matched by
exhaustive enumeration of repetition splits, which decides existence of a
match exactly as the backtracking regex engine does.  `\b` is the standard
word-boundary: word characters are ASCII alphanumerics, `_`, and Hebrew
letters (the repertoire of the texts this system handles). -/

/-- One regex token: a character class with a repetition range
(`none` = unbounded, as in `+` or `{2,}`). -/
structure PTok where
  pat : Char → Bool
  lo : Nat
  hi : Option Nat

/-- All possible remainders after matching one token at the front of `s`. -/
def tokRems (t : PTok) (s : List Char) : List (List Char) :=
  let run := s.takeWhile t.pat
  let cap := match t.hi with
    | some h => min h run.length
    | none => run.length
  if t.lo > cap then []
  else (List.range (cap - t.lo + 1)).map (fun k => s.drop (t.lo + k))

/-- All possible remainders after matching a token sequence at the front. -/
def toksRems : List PTok → List Char → List (List Char)
  | [], s => [s]
  | t :: ts, s => (tokRems t s).flatMap (toksRems ts)

/-- Word character for `\b` (Python `\w` on the ASCII + Hebrew repertoire). -/
def isWordChar (c : Char) : Bool :=
  c.isAlphanum ∨ c = '_' ∨ (0x5D0 ≤ c.val ∧ c.val ≤ 0x5EA)

def getCh (s : List Char) (i : Nat) : Option Char :=
  (s.drop i).head?

def isWordOpt : Option Char → Bool
  | some c => isWordChar c
  | none => false

/-- `\b` holds at position `i` of `s` iff word-ness changes there. -/
def boundaryAt (s : List Char) (i : Nat) : Bool :=
  let before := if i = 0 then false else isWordOpt (getCh s (i - 1))
  before ≠ isWordOpt (getCh s i)

/-- Does `\b toks \b` match anywhere in `s`? -/
def piiFoundIn (toks : List PTok) (s : List Char) : Bool :=
  (List.range (s.length + 1)).any (fun i =>
    boundaryAt s i ∧
      (toksRems toks (s.drop i)).any (fun rem => boundaryAt s (s.length - rem.length)))

def litTok (c : Char) : PTok := ⟨(· = c), 1, some 1⟩

def digitsTok (n : Nat) : PTok := ⟨Char.isDigit, n, some n⟩

def emailLocalChar (c : Char) : Bool :=
  c.isAlphanum ∨ c = '.' ∨ c = '_' ∨ c = '%' ∨ c = '+' ∨ c = '-'

def emailDomainChar (c : Char) : Bool :=
  c.isAlphanum ∨ c = '.' ∨ c = '-'

/-- The class `[A-Z|a-z]` of the email pattern (it literally contains `|`). -/
def emailTldChar (c : Char) : Bool :=
  c.isAlpha ∨ c = '|'

/-- `QualityChecker.PII_PATTERNS` (quality_checker.py lines 67-75), each with
its description. -/
def piiPatterns : List (List PTok × String) :=
  [ ([digitsTok 9], "Israeli ID number"),
    ([digitsTok 3, ⟨(· = '-'), 0, some 1⟩, digitsTok 7], "ID number format"),
    ([litTok '0', litTok '5', digitsTok 1, ⟨(· = '-'), 0, some 1⟩, digitsTok 7],
      "Israeli mobile phone"),
    ([litTok '0', ⟨fun c => '2' ≤ c ∧ c ≤ '9', 1, some 1⟩, ⟨(· = '-'), 0, some 1⟩,
      digitsTok 7], "Israeli landline"),
    ([⟨emailLocalChar, 1, none⟩, litTok '@', ⟨emailDomainChar, 1, none⟩,
      litTok '.', ⟨emailTldChar, 2, none⟩], "Email address"),
    ([⟨Char.isDigit, 1, some 3⟩, litTok '.', ⟨Char.isDigit, 1, some 3⟩, litTok '.',
      ⟨Char.isDigit, 1, some 3⟩, litTok '.', ⟨Char.isDigit, 1, some 3⟩], "IP address"),
    ([digitsTok 4, ⟨fun c => c = '-' ∨ c = ' ', 0, some 1⟩, digitsTok 4,
      ⟨fun c => c = '-' ∨ c = ' ', 0, some 1⟩, digitsTok 4,
      ⟨fun c => c = '-' ∨ c = ' ', 0, some 1⟩, digitsTok 4], "Credit card number") ]

/-- Greedy end of the first alternative matching at the front of `s`
(the maximal end, which is what the greedy engine commits to for the
placeholder patterns below). -/
def bestEnd (toks : List PTok) (s : List Char) : Option Nat :=
  (toksRems toks s).foldl
    (fun acc r =>
      match acc with
      | none => some (s.length - r.length)
      | some m => some (max m (s.length - r.length)))
    none

def altBestEnd : List (List PTok) → List Char → Option Nat
  | [], _ => none
  | a :: rest, s =>
    match bestEnd a s with
    | some e => some e
    | none => altBestEnd rest s

/-- `len(re.findall(pattern, s))`: leftmost scan counting non-overlapping
matches. -/
def countMatchesF (alts : List (List PTok)) : Nat → List Char → Nat
  | 0, _ => 0
  | _, [] => 0
  | fuel + 1, s =>
    match altBestEnd alts s with
    | some e => 1 + countMatchesF alts fuel (s.drop (max e 1))
    | none => countMatchesF alts fuel (s.drop 1)

/-- Case-insensitive literal (the placeholder scan passes `re.IGNORECASE`). -/
def ciLit (c : Char) : PTok := ⟨fun d => d.toLower = c.toLower, 1, some 1⟩

def litToks (w : String) : List PTok := w.data.map ciLit

/-- `.` of the placeholder regexes (no DOTALL, so it excludes newline). -/
def dotTok : PTok := ⟨(· ≠ '\n'), 0, none⟩

/-- The four `placeholder_patterns` of `_check_privacy`
(lines 567-572); `פלוני|אלמוני` is an alternation of two literals. -/
def placeholderPatterns : List (List (List PTok)) :=
  [ [[ciLit '['] ++ [dotTok] ++ litToks "הוסר" ++ [dotTok] ++ [ciLit ']']],
    [[ciLit '['] ++ [dotTok] ++ litToks "REMOVED" ++ [dotTok] ++ [ciLit ']']],
    [litToks "פלוני", litToks "אלמוני"],
    [litToks "XXX"] ]

/-- `unresolved_placeholders` (lines 573-576). -/
def countPlaceholders (s : List Char) : Nat :=
  (placeholderPatterns.map (fun alts => countMatchesF alts (s.length + 1) s)).sum

/-- The article-dictionary view used by the checker and the generation loop
(`title`, `meta_description`, `content_html`; the remaining keys of the
article dict feed only the four abstracted batteries). -/
structure Draft where
  title : String
  metaDescription : String
  contentHtml : String
deriving Repr, DecidableEq

/-- `all_text = f"{title} {meta_desc} {content}"` of `_check_privacy`. -/
def privacyAllText (a : Draft) : List Char :=
  a.title.data ++ [' '] ++ a.metaDescription.data ++ [' '] ++ a.contentHtml.data

/-- Descriptions of the PII patterns found in the draft
(`pii_found`; the per-pattern occurrence counts appear only inside the
message strings and are elided there). -/
def piiFoundDescriptions (a : Draft) : List String :=
  (piiPatterns.filter (fun pd => piiFoundIn pd.1 (privacyAllText a))).map (·.2)

/-- `pii_clean = len(pii_found) == 0`. -/
def piiClean (a : Draft) : Bool :=
  (piiFoundDescriptions a).isEmpty

/-- `QualityChecker._check_privacy` (lines 540-587): the error-severity PII
check followed by the info-severity placeholder check. -/
def checkPrivacy (a : Draft) : List QualityCheck :=
  [ { name := "pii_check"
      passed := piiClean a
      score := if piiClean a then 100 else 0
      message := if piiClean a then "No PII detected"
                 else "PII detected: " ++ String.intercalate "; " (piiFoundDescriptions a)
      category := "privacy"
      severity := if piiClean a then "info" else "error" },
    { name := "placeholder_check"
      passed := countPlaceholders (privacyAllText a) ≤ 5
      score := if countPlaceholders (privacyAllText a) ≤ 5 then 100 else 50
      message := "Anonymization placeholders: " ++ toString (countPlaceholders (privacyAllText a))
      category := "privacy"
      severity := "info" } ]

/-- The four injected per-category check batteries (see the section
comment above). -/
structure CheckBattery where
  content : Draft → List QualityCheck
  seo : Draft → List QualityCheck
  readability : Draft → List QualityCheck
  eeat : Draft → List QualityCheck

/-- `QualityChecker.check_all` (lines 77-156): run the four category
batteries and the privacy battery, then aggregate. -/
def checkAll (b : CheckBattery) (a : Draft) : QualityReport :=
  aggregateChecks
    (b.content a ++ b.seo a ++ b.readability a ++ b.eeat a ++ checkPrivacy a)

/-- `ArticleGenerator.calculate_scores` (article_generator.py lines 740-790):
runs `check_all` and keeps only the five numeric scores — the report's
`ready_to_publish`, `all_passed` and severity information are dropped. -/
def calculateScores (b : CheckBattery) (a : Draft) : Scores :=
  let r := checkAll b a
  ⟨r.contentScore, r.seoScore, r.readabilityScore, r.eeatScore, r.overallScore⟩

/-! ## Verdict model (`models/verdict.py`) and generation orchestrator
(`services/article_service.py`)

`VerdictStatus` is embedded exactly as declared (lines 24-34): it has an
`ARTICLE_CREATED` member and **no** `ARTICLE_CREATING` member.  Python enum
attribute access is modelled by `verdictStatusMember`, which returns `none`
(= `AttributeError`) for names that are not members.  Analysis payload
columns (JSON lists, amounts) are modelled as opaque `Option String`
values: the claims only concern their presence.  The orchestrator's
external collaborators (generation API, link enhancer, scorer, WordPress)
are an injected environment; steps that cannot affect control flow or the
verified state (slug generation, schema markup, featured-image fetch) are
elided, and transient progress messages between consecutive commits are
collapsed to the last one. -/

inductive VerdictStatus where
  | new
  | extracting
  | extracted
  | anonymizing
  | anonymized
  | analyzing
  | analyzed
  | articleCreated
  | published
  | failed
deriving Repr, DecidableEq

/-- Python enum attribute lookup on `VerdictStatus`; `none` models the
`AttributeError` raised for a non-member name. -/
def verdictStatusMember (n : String) : Option VerdictStatus :=
  if n = "NEW" then some .new
  else if n = "EXTRACTING" then some .extracting
  else if n = "EXTRACTED" then some .extracted
  else if n = "ANONYMIZING" then some .anonymizing
  else if n = "ANONYMIZED" then some .anonymized
  else if n = "ANALYZING" then some .analyzing
  else if n = "ANALYZED" then some .analyzed
  else if n = "ARTICLE_CREATED" then some .articleCreated
  else if n = "PUBLISHED" then some .published
  else if n = "FAILED" then some .failed
  else none

/-- The article record created by the orchestrator (`models/article.py`;
fields not touched by the verified claims are elided). -/
structure ArticleRec where
  title : String
  metaDescription : String
  contentHtml : String
  wordCount : Nat
  readingTimeMinutes : Nat
  scores : Scores
  publishStatus : String
deriving Repr, DecidableEq

/-- The `Verdict` row (`models/verdict.py` lines 37-91), restricted to the
columns the verified services read or write. -/
structure Verdict where
  status : VerdictStatus
  processingProgress : Int
  processingMessage : String
  reviewNotes : Option String
  originalText : String
  cleanedText : Option String
  anonymizedText : Option String
  anonymizationReport : Option String
  privacyRiskLevel : String
  requiresManualReview : Bool
  keyFacts : Option String
  legalQuestions : Option String
  legalPrinciples : Option String
  compensationAmount : Option String
  compensationBreakdown : Option String
  relevantLaws : Option String
  precedentsCited : Option String
  practicalInsights : Option String
  articles : List ArticleRec
deriving Repr, DecidableEq

/-- Errors of `generate_article_from_verdict`: `ValueError` from the
pre-checks, `ArticleGenerationError` from the wrapped `try` body. -/
inductive GenError where
  | valueError (msg : String)
  | articleGenerationError (msg : String)
deriving Repr, DecidableEq

/-- The injected collaborators of one orchestrator run: the generation
API (`ArticleGenerator.generate`, fed the attempt's improvement hints),
the link enhancer (returns the enhanced `content_html`), the scorer
(`ArticleService.score_article`), the WordPress configuration and the
publish outcome, and whether an article already exists for the verdict. -/
structure GenEnv where
  generate : Nat → Option String → Draft
  enhanceHtml : Draft → String
  score : Draft → Scores
  wordpressActive : Bool
  publishOk : Bool
  existingArticle : Bool

/-- `ArticleService._build_improvement_hints` (lines 607-623). -/
def buildImprovementHints (p : Scores) : String :=
  let hints :=
    (if p.seoScore < 70 then
      ["SEO(" ++ toString p.seoScore ++ "): הוסף מילות מפתח 22+ פעמים, בכותרות ובפסקה ראשונה"]
     else []) ++
    (if p.eeatScore < 70 then
      ["E-E-A-T(" ++ toString p.eeatScore ++ "): הוסף 8+ סעיפי חוק עם מספרים, ביטויים סמכותיים, מונחים משפטיים עם הסבר"]
     else []) ++
    (if p.readabilityScore < 70 then
      ["קריאות(" ++ toString p.readabilityScore ++ "): קצר משפטים, הוסף רשימות"]
     else []) ++
    (if p.contentScore < 70 then
      ["תוכן(" ++ toString p.contentScore ++ "): הוסף FAQ, סיכום, קריאה לפעולה"]
     else [])
  String.intercalate " | " hints

/-- `failed_metrics` of the retry branch (lines 334-338). -/
def failedMetrics (s : Scores) : List String :=
  (if ¬ (s.contentScore ≥ minScoreThreshold) then
    ["Content(" ++ toString s.contentScore ++ ")"] else []) ++
  (if ¬ (s.seoScore ≥ minScoreThreshold) then
    ["SEO(" ++ toString s.seoScore ++ ")"] else []) ++
  (if ¬ (s.readabilityScore ≥ minScoreThreshold) then
    ["Readability(" ++ toString s.readabilityScore ++ ")"] else []) ++
  (if ¬ (s.eeatScore ≥ minScoreThreshold) then
    ["E-E-A-T(" ++ toString s.eeatScore ++ ")"] else [])

/-- The `review_notes` written on the final failed attempt (line 351). -/
def failNotes (s : Scores) : String :=
  "Article quality below threshold after " ++ toString maxGenerationAttempts ++
    " attempts. Last scores: Content=" ++ toString s.contentScore ++
    ", SEO=" ++ toString s.seoScore ++
    ", Readability=" ++ toString s.readabilityScore ++
    ", E-E-A-T=" ++ toString s.eeatScore

/-- `re.sub(r'<[^>]+>', '', html)` of `calculate_word_count`: remove HTML
tags, keeping the regex's quirks (an unmatched `<` and an empty `<>`
survive). -/
def stripTagsF : Nat → List Char → List Char
  | 0, s => s
  | _ + 1, [] => []
  | f + 1, '<' :: r =>
    let inner := r.takeWhile (· ≠ '>')
    if inner.length = 0 then '<' :: stripTagsF f r
    else
      match r.drop inner.length with
      | '>' :: rest => stripTagsF f rest
      | _ => '<' :: stripTagsF f r
  | f + 1, c :: r => c :: stripTagsF f r

/-- Python `str.split()` (whitespace runs, empties dropped). -/
def splitWSF : Nat → List Char → List (List Char)
  | 0, _ => []
  | f + 1, s =>
    let s1 := s.dropWhile isPySpace
    match s1 with
    | [] => []
    | _ =>
      (s1.takeWhile (fun c => ¬ isPySpace c)) ::
        splitWSF f (s1.dropWhile (fun c => ¬ isPySpace c))

def splitWS (s : List Char) : List (List Char) :=
  splitWSF (s.length + 1) s

/-- `ArticleService.calculate_word_count` (lines 72-86). -/
def wordCountOf (html : String) : Nat :=
  (splitWS (stripTagsF (html.data.length + 1) html.data)).length

/-- Python's banker's rounding of `a / b` (used by `round(word_count/200)`;
the halves arising here are exactly representable as floats). -/
def pyRoundDiv (a b : Nat) : Nat :=
  let q := a / b
  let r := a % b
  if 2 * r < b then q
  else if 2 * r > b then q + 1
  else if q % 2 = 0 then q else q + 1

/-- `ArticleService.calculate_reading_time` (lines 88-98). -/
def readingTimeOf (wc : Nat) : Nat :=
  max 1 (pyRoundDiv wc 200)

def strTake (s : String) (n : Nat) : String :=
  String.mk (s.data.take n)

/-- The post-gate tail of the loop body (lines 355-483): build the article
record, set the verdict to `ARTICLE_CREATED`, then auto-publish when an
active WordPress site exists. -/
def finishArticle (env : GenEnv) (v : Verdict) (draft : Draft) (scores : Scores)
    (attempt : Nat) : Except GenError ArticleRec × Verdict × Nat :=
  let wc := wordCountOf draft.contentHtml
  let article : ArticleRec :=
    { title := strTake draft.title 70
      metaDescription := strTake draft.metaDescription 160
      contentHtml := draft.contentHtml
      wordCount := wc
      readingTimeMinutes := readingTimeOf wc
      scores := scores
      publishStatus := "draft" }
  let v := { v with articles := v.articles ++ [article],
                    processingProgress := 92,
                    processingMessage := "מחפש תמונה ראשית מתאימה..." }
  let v := { v with status := VerdictStatus.articleCreated,
                    processingProgress := 95,
                    processingMessage := "מאמר נוצר בהצלחה, מתכונן לפרסום..." }
  if env.wordpressActive then
    if env.publishOk then
      (.ok { article with publishStatus := "published" },
       { v with status := VerdictStatus.published,
                processingProgress := 100,
                processingMessage := "פורסם בהצלחה ל-WordPress",
                articles := v.articles.dropLast ++ [{ article with publishStatus := "published" }] },
       attempt)
    else
      (.ok article,
       { v with status := VerdictStatus.articleCreated,
                processingProgress := 100,
                processingMessage := "מאמר נוצר בהצלחה - פרסום ל-WordPress נכשל (יש לבדוק הגדרות)" },
       attempt)
  else
    (.ok article,
     { v with status := VerdictStatus.articleCreated,
              processingProgress := 100,
              processingMessage := "מאמר נוצר בהצלחה - אין אתר WordPress מוגדר לפרסום אוטומטי" },
     attempt)

/-- The quality-control retry loop of `generate_article_from_verdict`
(lines 258-353), `attempt` counting up from 1; the first argument is the
remaining-attempt fuel, kept equal to
`maxGenerationAttempts - attempt + 1` by the caller (the fuel-0 branch is
unreachable under that alignment). -/
def genLoop (env : GenEnv) : Nat → Nat → Option Scores → Verdict →
    Except GenError ArticleRec × Verdict × Nat
  | 0, attempt, _, v =>
    (.error (.articleGenerationError "Failed to generate article: "), v, attempt)
  | left + 1, attempt, prevScores, v =>
    let progress : Int := 60 + ((attempt : Int) - 1) * 15
    let v := { v with processingProgress := progress,
                      processingMessage :=
                        "יוצר מאמר (" ++ toString attempt ++ "/" ++
                          toString maxGenerationAttempts ++ ") - שולח ל-AI..." }
    let hints : Option String :=
      if attempt > 1 then prevScores.map buildImprovementHints else none
    let draft0 := env.generate attempt hints
    let draft := { draft0 with contentHtml := env.enhanceHtml draft0 }
    let v := { v with processingProgress := progress + 3,
                      processingMessage :=
                        "יוצר מאמר (" ++ toString attempt ++ "/" ++
                          toString maxGenerationAttempts ++ ") - בודק איכות..." }
    let scores := env.score draft
    if gateAllPassed scores then
      finishArticle env
        { v with processingProgress := 95,
                 processingMessage := "מאמר עבר את כל בדיקות האיכות" }
        draft scores attempt
    else if attempt < maxGenerationAttempts then
      let v := { v with processingMessage :=
                    "מנסה שוב - נכשלו: " ++ String.intercalate ", " (failedMetrics scores) }
      genLoop env left (attempt + 1) (some scores) v
    else
      let notes := failNotes scores
      (.error (.articleGenerationError ("Failed to generate article: " ++ notes)),
       { v with status := VerdictStatus.failed,
                processingProgress := 60,
                processingMessage :=
                  "נכשל אחרי " ++ toString maxGenerationAttempts ++ " ניסיונות",
                reviewNotes := some notes },
       attempt)

/-- `ArticleService.generate_article_from_verdict` (lines 184-487): the
status and duplicate pre-checks raise `ValueError`; the `try` body first
evaluates `VerdictStatus.ARTICLE_CREATING` (line 253), whose
`AttributeError` is caught by the outer `except Exception` handler and
re-raised as `ArticleGenerationError(f"Failed to generate article: {e}")`
— before any generation attempt.  The third component counts the
generate-and-score attempts performed. -/
def generateArticleFromVerdict (env : GenEnv) (v : Verdict) :
    Except GenError ArticleRec × Verdict × Nat :=
  if ¬ (v.status = VerdictStatus.analyzed ∨ v.status = VerdictStatus.articleCreated) then
    (.error (.valueError "Verdict must be analyzed before article generation."), v, 0)
  else if env.existingArticle then
    (.error (.valueError "Article already exists for this verdict."), v, 0)
  else
    match verdictStatusMember "ARTICLE_CREATING" with
    | none =>
      (.error (.articleGenerationError "Failed to generate article: ARTICLE_CREATING"), v, 0)
    | some st =>
      genLoop env maxGenerationAttempts 1 none
        { v with status := st, processingProgress := 60,
                 processingMessage := "מתחיל יצירת מאמר..." }

/-! ## Batch model and counters (`models/batch.py`, `services/batch_service.py`,
`services/batch_worker.py`)

The batch counters and status transitions are embedded as a state machine:
`applyBatchOp` is the effect of one service call on one batch row.  Guard
violations raise `ValueError` in the source and leave the row unchanged,
so they are modelled as the identity.  The per-file outcomes of
`add_files_to_batch` (accepted / duplicate / invalid / error) are decided
by the file processor and the duplicate check, which are external to the
counters, so an `addFiles` operation carries the four outcome counts. -/

inductive BatchStatus where
  | pending
  | processing
  | completed
  | failed
  | cancelled
deriving Repr, DecidableEq

structure Batch where
  totalFiles : Int
  processedFiles : Int
  successfulFiles : Int
  failedFiles : Int
  skippedFiles : Int
  status : BatchStatus
  errorLog : List String
deriving Repr, DecidableEq

/-- `BatchService.create_batch` with the column defaults of
`models/batch.py` lines 37-47. -/
def initialBatch : Batch :=
  { totalFiles := 0, processedFiles := 0, successfulFiles := 0,
    failedFiles := 0, skippedFiles := 0, status := BatchStatus.pending,
    errorLog := [] }

/-- `MAX_FILES_PER_BATCH = 50`. -/
def maxFilesPerBatch : Int := 50

inductive BatchOp where
  | addFiles (accepted duplicates invalid errored : Nat)
  | updateProgress (success : Bool) (error : Option String)
  | startProcessing
  | cancel
deriving Repr, DecidableEq

/-- One `BatchService` call on one batch row:
`add_files_to_batch` (lines 87-136: guard on `PENDING` status and the
50-file limit, then `total_files += accepted`, `skipped_files += duplicates`,
an error-log entry per errored file), `update_batch_progress`
(lines 343-369: `processed += 1`, then `successful += 1` or `failed += 1`
with an optional error-log entry, then completion when
`processed >= total`), `start_batch_processing` (lines 263-288) and
`cancel_batch` (lines 290-322). -/
def applyBatchOp (op : BatchOp) (b : Batch) : Batch :=
  match op with
  | .addFiles accepted duplicates invalid errored =>
    if b.status ≠ BatchStatus.pending then b
    else if (accepted + duplicates + invalid + errored : Int) >
        maxFilesPerBatch - b.totalFiles then b
    else
      { b with totalFiles := b.totalFiles + accepted,
               skippedFiles := b.skippedFiles + duplicates,
               errorLog := b.errorLog ++ List.replicate errored "processing error" }
  | .updateProgress success error =>
    let b := { b with processedFiles := b.processedFiles + 1 }
    let b :=
      if success then { b with successfulFiles := b.successfulFiles + 1 }
      else
        { b with failedFiles := b.failedFiles + 1,
                 errorLog := b.errorLog ++ (match error with
                   | some e => [e]
                   | none => []) }
    if b.processedFiles ≥ b.totalFiles then
      { b with status := BatchStatus.completed }
    else b
  | .startProcessing =>
    if b.status = BatchStatus.pending ∧ b.totalFiles ≠ 0 then
      { b with status := BatchStatus.processing }
    else b
  | .cancel =>
    if b.status = BatchStatus.pending ∨ b.status = BatchStatus.processing then
      { b with status := BatchStatus.cancelled }
    else b

def applyBatchOps (ops : List BatchOp) (b : Batch) : Batch :=
  ops.foldl (fun b op => applyBatchOp op b) b

/-- The false invariant stated by the spec, and the one the code maintains. -/
def batchCountersInv (b : Batch) : Prop :=
  b.processedFiles = b.successfulFiles + b.failedFiles ∧
    0 ≤ b.totalFiles ∧ 0 ≤ b.processedFiles ∧ 0 ≤ b.successfulFiles ∧
    0 ≤ b.failedFiles ∧ 0 ≤ b.skippedFiles

instance (b : Batch) : Decidable (batchCountersInv b) := by
  unfold batchCountersInv
  infer_instance

/-- `AttributeError` raised inside the batch worker. -/
inductive WorkerErr where
  | attributeError (name : String)
deriving Repr, DecidableEq

/-- `BatchWorker._update_batch_statuses` (batch_worker.py lines 199-228):
for each batch in `PROCESSING` status, count the verdicts still in
`EXTRACTED`/`ANALYZING`/`ARTICLE_CREATING` state and mark the batch
completed when none remain.  Building that status list evaluates
`VerdictStatus.ARTICLE_CREATING`, so the first processing batch triggers
the attribute lookup; `remaining` abstracts the verdict count query. -/
def updateBatchStatuses (remaining : Batch → Nat) (bs : List Batch) :
    Except WorkerErr (List Batch) :=
  match bs.filter (fun b => decide (b.status = BatchStatus.processing)) with
  | [] => .ok bs
  | _ :: _ =>
    match verdictStatusMember "ARTICLE_CREATING" with
    | none => .error (.attributeError "ARTICLE_CREATING")
    | some _ =>
      .ok (bs.map (fun b =>
        if b.status = BatchStatus.processing ∧ remaining b = 0 then
          { b with status := BatchStatus.completed }
        else b))

/-! ## Document chunker (`services/anonymizer.py` lines 247-336)

`_split_into_chunks` normalizes line endings, splits on the paragraph
separator regex `\n\s*\n` (a greedy match runs from a newline through the
last newline of the following whitespace run), strips and drops empty
paragraphs, and regroups them under the size bound; `_force_split_by_size`
falls back to sentence and then word granularity.  The class constant
`MAX_CHUNK_SIZE = 25000` is the `S` argument throughout. -/

def replaceCRLF : List Char → List Char
  | [] => []
  | [c] => [c]
  | c :: d :: r =>
    if c = '\r' ∧ d = '\n' then '\n' :: replaceCRLF r
    else c :: replaceCRLF (d :: r)

def replaceCR (s : List Char) : List Char :=
  s.map (fun c => if c = '\r' then '\n' else c)

/-- The suffix of a whitespace run after its last newline. -/
def afterLastNL (ws : List Char) : List Char :=
  (ws.reverse.takeWhile (· ≠ '\n')).reverse

/-- Leftmost match of `\n\s*\n`: returns the piece before the separator and
the remainder after it. -/
def findSep : List Char → Option (List Char × List Char)
  | [] => none
  | c :: r =>
    if c = '\n' ∧ (r.takeWhile isPySpace).contains '\n' then
      some ([], afterLastNL (r.takeWhile isPySpace) ++ r.drop (r.takeWhile isPySpace).length)
    else
      match findSep r with
      | some (pre, post) => some (c :: pre, post)
      | none => none

/-- `re.split(r'\n\s*\n', s)` (fuel-driven; `s.length + 1` fuel always
suffices because every separator consumes at least two characters). -/
def paraSplitF : Nat → List Char → List (List Char)
  | 0, s => [s]
  | f + 1, s =>
    match findSep s with
    | none => [s]
    | some (pre, post) => pre :: paraSplitF f post

/-- `sep.join(pieces)`. -/
def joinL (sep : List Char) : List (List Char) → List Char
  | [] => []
  | [x] => x
  | x :: y :: r => x ++ sep ++ joinL sep (y :: r)

def nl2 : List Char := ['\n', '\n']

/-- The stripped non-empty paragraphs of the normalized text
(lines 253-256). -/
def paragraphsOfL (s : List Char) : List (List Char) :=
  let normalized := replaceCR (replaceCRLF s)
  ((paraSplitF (normalized.length + 1) normalized).map stripL).filter (fun p => ¬ p.isEmpty)

/-- Leftmost match of `(?<=[.!?])\s+`: the piece up to and including the
punctuation, and the remainder after the consumed whitespace run. -/
def findSentBreak : List Char → Option (List Char × List Char)
  | [] => none
  | [_] => none
  | c :: d :: r =>
    if (c = '.' ∨ c = '!' ∨ c = '?') ∧ isPySpace d then
      some ([c], (d :: r).dropWhile isPySpace)
    else
      match findSentBreak (d :: r) with
      | some (pre, rest) => some (c :: pre, rest)
      | none => none

/-- `re.split(r'(?<=[.!?])\s+', s)`. -/
def sentSplitF : Nat → List Char → List (List Char)
  | 0, s => [s]
  | f + 1, s =>
    match findSentBreak s with
    | none => [s]
    | some (pre, rest) => pre :: sentSplitF f rest

/-- The word loop of `_force_split_by_size` (lines 312-324). -/
def buildWords (S : Nat) : List (List Char) → List (List Char) → Nat → List (List Char)
  | [], wc, _ => if wc.isEmpty then [] else [joinL [' '] wc]
  | w :: ws, wc, size =>
    if size + w.length + 1 > S ∧ ¬ wc.isEmpty then
      joinL [' '] wc :: buildWords S ws [w] w.length
    else
      buildWords S ws (wc ++ [w]) (size + w.length + 1)

/-- The sentence loop of `_force_split_by_size` (lines 299-334). -/
def buildSent (S : Nat) : List (List Char) → List (List Char) → Nat → List (List Char)
  | [], cur, _ => if cur.isEmpty then [] else [joinL [' '] cur]
  | s :: ss, cur, size =>
    if s.length > S then
      (if cur.isEmpty then [] else [joinL [' '] cur]) ++
        buildWords S (splitWS s) [] 0 ++ buildSent S ss [] 0
    else if size + s.length > S ∧ ¬ cur.isEmpty then
      joinL [' '] cur :: buildSent S ss [s] s.length
    else
      buildSent S ss (cur ++ [s]) (size + s.length + 1)

/-- `Anonymizer._force_split_by_size` (lines 291-336). -/
def forceSplitL (S : Nat) (text : List Char) : List (List Char) :=
  let sentences := sentSplitF (text.length + 1) text
  let chunks := buildSent S sentences [] 0
  if chunks.isEmpty then [text] else chunks

/-- The paragraph loop of `_split_into_chunks` (lines 263-289). -/
def buildChunksL (S : Nat) : List (List Char) → List (List Char) → Nat → List (List Char)
  | [], cur, _ => if cur.isEmpty then [] else [joinL nl2 cur]
  | p :: ps, cur, size =>
    if p.length > S then
      (if cur.isEmpty then [] else [joinL nl2 cur]) ++ forceSplitL S p ++
        buildChunksL S ps [] 0
    else if size + p.length > S ∧ ¬ cur.isEmpty then
      joinL nl2 cur :: buildChunksL S ps [p] p.length
    else
      buildChunksL S ps (cur ++ [p]) (size + p.length + 2)

/-- `Anonymizer._split_into_chunks` (lines 247-289). -/
def splitChunksL (S : Nat) (text : List Char) : List (List Char) :=
  let paras := paragraphsOfL text
  if paras.length ≤ 1 ∧ text.length > S then forceSplitL S text
  else
    let chunks := buildChunksL S paras [] 0
    if chunks.isEmpty then [text] else chunks

/-- `MAX_CHUNK_SIZE = 25000` (anonymizer.py line 121). -/
def maxChunkSize : Nat := 25000

def splitIntoChunks (S : Nat) (text : String) : List String :=
  (splitChunksL S text.data).map String.mk

def parasOf (text : String) : List String :=
  (paragraphsOfL text.data).map String.mk

def joinStrings (sep : String) (xs : List String) : String :=
  String.mk (joinL sep.data (xs.map String.data))

/-! ## Anonymizer chunked path (`services/anonymizer.py` lines 123-245)

`_anonymize_single` — the per-chunk external generative call with its
retry and response-transformation logic — is the injected collaborator
`single`; `AnonymizationError` after its retries is the `Except.error`
case.  `_anonymize_chunked` is embedded concretely; progress callbacks
are side-effect-only and elided. -/

/-- The dictionary `_anonymize_single` returns (report items opaque). -/
structure ChunkOut where
  anonymizedText : String
  report : List String
  riskLevel : String
  requiresReview : Bool
  reviewNotes : String
deriving Repr, DecidableEq

structure AnonResult where
  anonymizedText : String
  report : List String
  riskLevel : String
  requiresReview : Bool
  reviewNotes : String
deriving Repr, DecidableEq

/-- Risk update of `_anonymize_chunked` lines 218-220. -/
def updRisk (acc r : String) : String :=
  if r = "high" ∨ (r = "medium" ∧ acc = "low") then r else acc

structure ChunkSt where
  parts : List String
  reports : List String
  risk : String
  review : Bool
  notes : List String
deriving Repr, DecidableEq

/-- `f"חלק {i+1}: שגיאה בעיבוד - {e}"` (line 234). -/
def noteFail (idx : Nat) (e : String) : String :=
  "חלק " ++ toString idx ++ ": שגיאה בעיבוד - " ++ e

/-- `f"חלק {i+1}: {notes}"` (line 225). -/
def noteReview (idx : Nat) (n : String) : String :=
  "חלק " ++ toString idx ++ ": " ++ n

/-- The per-chunk loop of `_anonymize_chunked` (lines 203-234). -/
def procChunks (single : String → Except String ChunkOut) :
    List String → Nat → ChunkSt → ChunkSt
  | [], _, st => st
  | c :: cs, idx, st =>
    match single c with
    | .ok r =>
      procChunks single cs (idx + 1)
        { parts := st.parts ++ [r.anonymizedText]
          reports := st.reports ++ r.report
          risk := updRisk st.risk r.riskLevel
          review := st.review || r.requiresReview
          notes := st.notes ++
            (if r.requiresReview ∧ r.reviewNotes ≠ "" then
              [noteReview (idx + 1) r.reviewNotes]
             else []) }
    | .error e =>
      procChunks single cs (idx + 1)
        { st with parts := st.parts ++ [c],
                  review := true,
                  notes := st.notes ++ [noteFail (idx + 1) e] }

/-- `Anonymizer._anonymize_chunked` (lines 189-245). -/
def anonymizeChunked (S : Nat) (single : String → Except String ChunkOut)
    (text : String) : AnonResult :=
  let chunks := splitIntoChunks S text
  let st := procChunks single chunks 0 ⟨[], [], "low", false, []⟩
  { anonymizedText := joinStrings "\n\n" st.parts
    report := st.reports
    riskLevel := st.risk
    requiresReview := st.review
    reviewNotes := if st.notes.isEmpty then "" else joinStrings "\n" st.notes }

/-- `Anonymizer.anonymize` (lines 123-155). -/
def anonymize (S : Nat) (single : String → Except String ChunkOut)
    (text : String) : Except String AnonResult :=
  if stripPy text = "" then .error "Text cannot be empty"
  else if text.length > S then .ok (anonymizeChunked S single text)
  else
    (single text).map (fun r =>
      ⟨r.anonymizedText, r.report, r.riskLevel, r.requiresReview, r.reviewNotes⟩)

/-! ## JSON repair parser (`utils/json_repair.py`)

`json.loads` is an external library function, modelled as an injected
total parser `loads : String → Option α` (its `JSONDecodeError` is the
`none` case — the only exception the cascade catches).  The repair
transforms are embedded concretely below; the fuel arguments are always
called with enough fuel (`length + 1`), since every step consumes at
least one input character. -/

def indexOfSub (pat : List Char) : List Char → Option Nat
  | [] => if pat.isEmpty then some 0 else none
  | s@(_ :: rest) =>
    if pat.isPrefixOf s then some 0 else (indexOfSub pat rest).map (· + 1)

def containsSub (pat s : List Char) : Bool :=
  (indexOfSub pat s).isSome

def ticks : List Char := "```".data

/-- The group captured by `(?:json)?\s*([\s\S]*?)``` ` at the front of the
text after an opening fence: everything between the maximal whitespace
prefix and the first closing fence. -/
def fenceGroup (b : List Char) : Option (List Char) :=
  match indexOfSub ticks b with
  | none => none
  | some p =>
    let wsLen := (b.takeWhile isPySpace).length
    some ((b.drop wsLen).take (p - wsLen))

/-- The optional `json` marker is consumed greedily, with backtracking. -/
def fenceBody (body : List Char) : Option (List Char) :=
  if "json".data.isPrefixOf body then
    match fenceGroup (body.drop 4) with
    | some g => some g
    | none => fenceGroup body
  else fenceGroup body

/-- `re.findall(r'```(?:json)?\s*([\s\S]*?)```', t)` first match: scan
opening-fence positions left to right. -/
def fenceScan : Nat → List Char → Option (List Char)
  | 0, _ => none
  | f + 1, s =>
    match indexOfSub ticks s with
    | none => none
    | some i =>
      match fenceBody (s.drop (i + 3)) with
      | some g => some g
      | none => fenceScan f (s.drop (i + 1))

/-- Python `t.split('\n')` (keeps empty pieces). -/
def splitOnNL : Nat → List Char → List (List Char)
  | 0, s => [s]
  | f + 1, s =>
    let pre := s.takeWhile (· ≠ '\n')
    if pre.length = s.length then [s]
    else pre :: splitOnNL f (s.drop (pre.length + 1))

/-- The third block of `extract_from_markdown` (lines 71-84). -/
def tryStartPatterns : List (List Char) → List Char → List Char
  | [], t => t
  | p :: ps, t =>
    match indexOfSub p t with
    | none => tryStartPatterns ps t
    | some i =>
      let remaining := t.drop (i + p.length)
      match indexOfSub ticks remaining with
      | some e => stripL (remaining.take e)
      | none => stripL remaining

/-- `extract_from_markdown` (json_repair.py lines 42-86). -/
def extractFromMarkdown (t0 : List Char) : List Char :=
  let t := stripL t0
  let fallback :=
    if containsSub "```json".data t ∨ containsSub ("```\n\x7b".data) t then
      tryStartPatterns
        ["```json\n".data, "```json\r\n".data, "```\n".data, "```\r\n".data] t
    else t
  match fenceScan (t.length + 1) t with
  | some g => stripL g
  | none =>
    if ticks.isPrefixOf t then
      let lines := (splitOnNL (t.length + 1) t).drop 1
      let jsonLines := lines.takeWhile (fun l => ¬ (ticks.isPrefixOf (stripL l)))
      if ¬ jsonLines.isEmpty then stripL (joinL ['\n'] jsonLines)
      else fallback
    else fallback

/-- The quote-aware, escape-aware scan of `extract_json_object`
(lines 104-131): either the index of the brace closing the outermost
object, or the final `(in_string, in_array, depth)` state. -/
def scanJ : List Char → Bool → Bool → Int → Int → Nat → Sum Nat (Bool × Int × Int)
  | [], _, ins, dep, arr, _ => .inr (ins, arr, dep)
  | c :: r, esc, ins, dep, arr, i =>
    if esc then scanJ r false ins dep arr (i + 1)
    else if c = '\\' then scanJ r true ins dep arr (i + 1)
    else if c = '"' then scanJ r false (¬ ins) dep arr (i + 1)
    else if ins then scanJ r false ins dep arr (i + 1)
    else if c = '{' then scanJ r false ins (dep + 1) arr (i + 1)
    else if c = '}' then
      (if dep - 1 = 0 then .inl i else scanJ r false ins (dep - 1) arr (i + 1))
    else if c = '[' then scanJ r false ins dep (arr + 1) (i + 1)
    else if c = ']' then scanJ r false ins dep (arr - 1) (i + 1)
    else scanJ r false ins dep arr (i + 1)

/-- `extract_json_object` (lines 89-146), synthesizing a missing closing
quote, brackets and braces for truncated input. -/
def extractJsonObject (t : List Char) : List Char :=
  match indexOfSub ['{'] t with
  | none => t
  | some start =>
    let tail := t.drop start
    match scanJ tail false false 0 0 0 with
    | .inl i => tail.take (i + 1)
    | .inr (ins, arr, dep) =>
      ((tail ++ (if ins then ['"'] else [])) ++
        (if arr > 0 then List.replicate arr.toNat ']' else [])) ++
        (if dep > 0 then List.replicate dep.toNat '}' else [])

/-- `fix_trailing_commas`: `re.sub(r',\s*([}\]])', r'\1', s)`. -/
def ftcF : Nat → List Char → List Char
  | 0, s => s
  | _ + 1, [] => []
  | f + 1, c :: r =>
    if c = ',' then
      let ws := r.takeWhile isPySpace
      match r.drop ws.length with
      | b :: rest2 =>
        if b = '}' ∨ b = ']' then b :: ftcF f rest2 else ',' :: ftcF f r
      | [] => ',' :: ftcF f r
    else c :: ftcF f r

/-- One `re.sub(X ++ '\s*\n[\s\n]*' ++ Y, X ++ ',\n' ++ Y, s)` pass of
`fix_missing_commas`: the whitespace between an `X` token and the next
`Y` character must contain a newline. -/
def fmcPass (matchL : List Char → Option (List Char × List Char))
    (isR : Char → Bool) : Nat → List Char → List Char
  | 0, s => s
  | _ + 1, [] => []
  | f + 1, c :: r =>
    match matchL (c :: r) with
    | some (consumed, rest1) =>
      let ws := rest1.takeWhile isPySpace
      if ws.contains '\n' then
        match rest1.drop ws.length with
        | y :: rest2 =>
          if isR y then consumed ++ (',' :: '\n' :: [y]) ++ fmcPass matchL isR f rest2
          else c :: fmcPass matchL isR f r
        | [] => c :: fmcPass matchL isR f r
      else c :: fmcPass matchL isR f r
    | none => c :: fmcPass matchL isR f r

def mQuote : List Char → Option (List Char × List Char)
  | '"' :: r => some (['"'], r)
  | _ => none

def mCloseBrace : List Char → Option (List Char × List Char)
  | '}' :: r => some (['}'], r)
  | _ => none

def mCloseBracket : List Char → Option (List Char × List Char)
  | ']' :: r => some ([']'], r)
  | _ => none

def mBoolNull (s : List Char) : Option (List Char × List Char) :=
  if "true".data.isPrefixOf s then some ("true".data, s.drop 4)
  else if "false".data.isPrefixOf s then some ("false".data, s.drop 5)
  else if "null".data.isPrefixOf s then some ("null".data, s.drop 4)
  else none

def mDigit : List Char → Option (List Char × List Char)
  | c :: r => if c.isDigit then some ([c], r) else none
  | [] => none

/-- `fix_missing_commas` (lines 158-190): nine sequential substitution
passes in source order. -/
def fixMissingCommas (s : List Char) : List Char :=
  let p1 := fmcPass mQuote (· = '"') (s.length + 1) s
  let p2 := fmcPass mCloseBrace (· = '"') (p1.length + 1) p1
  let p3 := fmcPass mCloseBracket (· = '"') (p2.length + 1) p2
  let p4 := fmcPass mBoolNull (· = '"') (p3.length + 1) p3
  let p5 := fmcPass mDigit (· = '"') (p4.length + 1) p4
  let p6 := fmcPass mCloseBrace (· = '{') (p5.length + 1) p5
  let p7 := fmcPass mCloseBracket (· = '[') (p6.length + 1) p6
  let p8 := fmcPass mCloseBrace (· = '[') (p7.length + 1) p7
  fmcPass mCloseBracket (· = '{') (p8.length + 1) p8

/-- `fix_newlines_in_strings` (lines 193-235). -/
def fnisF : List Char → Bool → Bool → List Char
  | [], _, _ => []
  | c :: r, esc, ins =>
    if esc then c :: fnisF r false ins
    else if c = '\\' then c :: fnisF r true ins
    else if c = '"' then c :: fnisF r false (¬ ins)
    else if ins ∧ c = '\n' then '\\' :: 'n' :: fnisF r false ins
    else if ins ∧ c = '\r' then fnisF r false ins
    else if ins ∧ c = '\t' then '\\' :: 't' :: fnisF r false ins
    else c :: fnisF r false ins

/-- `repair_json` (lines 18-39). -/
def repairJsonL (t : List Char) : List Char :=
  let e1 := extractJsonObject (extractFromMarkdown t)
  fnisF (fixMissingCommas (ftcF (e1.length + 1) e1)) false false

def repairJson (s : String) : String :=
  String.mk (repairJsonL s.data)

/-- The control characters removed by the third strategy:
`[\x00-\x08\x0b\x0c\x0e-\x1f]`. -/
def isCtrlStripped (c : Char) : Bool :=
  c.val ≤ 0x08 ∨ c.val = 0x0b ∨ c.val = 0x0c ∨ (0x0e ≤ c.val ∧ c.val ≤ 0x1f)

def stripCtrlStr (s : String) : String :=
  String.mk (s.data.filter (fun c => ¬ isCtrlStripped c))

/-- `text.find('{')` (-1 when absent). -/
def braceStart (s : String) : Int :=
  match indexOfSub ['{'] s.data with
  | some i => (i : Int)
  | none => -1

def dropFromBrace (s : String) : String :=
  match indexOfSub ['{'] s.data with
  | some i => String.mk (s.data.drop i)
  | none => s

/-- `safe_parse_json` (json_repair.py lines 238-284): the blank-input
sentinel, then the four-strategy cascade (direct parse; repair; control
characters stripped then repair; content before the first `{` discarded
then repair — the last only when `find('{') > 0`).  Each strategy's
parse failure is caught and the next strategy tried; the function itself
is total, which is the embedded form of "never raises". -/
def safeParseJson {α : Type} (loads : String → Option α) (s : String) : Option α :=
  if stripPy s = "" then none
  else
    match loads s with
    | some v => some v
    | none =>
      match loads (repairJson s) with
      | some v => some v
      | none =>
        match loads (repairJson (stripCtrlStr s)) with
        | some v => some v
        | none =>
          if braceStart s > 0 then loads (repairJson (dropFromBrace s))
          else none

/-! ## Analysis service and administrative reset
(`services/analysis_service.py`, `services/verdict_service.py`)

`VerdictAnalyzer.analyze` is the injected external call; the progress
commits between stages are collapsed to the final state of each branch. -/

/-- The fields `analyze_verdict` copies out of the analyzer's result
(payloads opaque; the optional ones are written only when truthy). -/
structure AnalysisOut where
  keyFacts : String
  legalQuestions : String
  legalPrinciples : String
  compensationAmount : Option String
  compensationBreakdown : Option String
  relevantLaws : Option String
  precedentsCited : Option String
  practicalInsights : Option String

/-- `AnalysisService.analyze_verdict` (analysis_service.py lines 64-165):
the status guard raises `ValueError` before any mutation; on analyzer
failure the verdict is marked `FAILED` and `AnalysisError` is raised. -/
def analyzeVerdict (analyzer : String → Except String AnalysisOut) (v : Verdict) :
    Except String Unit × Verdict :=
  if ¬ (v.status = VerdictStatus.extracted ∨ v.status = VerdictStatus.analyzed ∨
        v.status = VerdictStatus.analyzing) then
    (.error "Verdict must be extracted before analysis.", v)
  else
    let v := if v.status ≠ VerdictStatus.analyzing then
      { v with status := VerdictStatus.analyzing } else v
    let v := { v with processingProgress := 40,
                      processingMessage := "מחלץ בסיס משפטי וסעיפי חוק..." }
    let textToAnalyze :=
      match v.cleanedText with
      | some t => if t ≠ "" then t else v.originalText
      | none => v.originalText
    match analyzer textToAnalyze with
    | .ok r =>
      (.ok (),
       { v with
          keyFacts := some r.keyFacts
          legalQuestions := some r.legalQuestions
          legalPrinciples := some r.legalPrinciples
          compensationAmount :=
            match r.compensationAmount with
            | some x => some x
            | none => v.compensationAmount
          compensationBreakdown :=
            match r.compensationBreakdown with
            | some x => some x
            | none => v.compensationBreakdown
          relevantLaws :=
            match r.relevantLaws with
            | some x => some x
            | none => v.relevantLaws
          precedentsCited :=
            match r.precedentsCited with
            | some x => some x
            | none => v.precedentsCited
          practicalInsights :=
            match r.practicalInsights with
            | some x => some x
            | none => v.practicalInsights
          status := VerdictStatus.analyzed
          processingProgress := 65
          processingMessage := "ניתוח משפטי הושלם בהצלחה" })
    | .error e =>
      (.error ("Failed to analyze verdict: " ++ e),
       { v with status := VerdictStatus.failed,
                processingProgress := 35,
                processingMessage := "שגיאה בניתוח: " ++ e,
                reviewNotes := some ("Analysis failed: " ++ e) })

/-- `VerdictService.reset_verdict` (verdict_service.py lines 292-334). -/
def resetVerdict (target : VerdictStatus) (v : Verdict) : Verdict :=
  let v :=
    if target = VerdictStatus.extracted then
      { v with anonymizedText := none, anonymizationReport := none,
               privacyRiskLevel := "low", requiresManualReview := false }
    else v
  let v :=
    if target = VerdictStatus.extracted ∨ target = VerdictStatus.anonymized then
      { v with keyFacts := none, legalQuestions := none, legalPrinciples := none,
               compensationAmount := none, compensationBreakdown := none,
               relevantLaws := none, precedentsCited := none,
               practicalInsights := none }
    else v
  { v with articles := [], status := target, reviewNotes := none }

/-! ## Concrete instances used by the closed theorems and witnesses -/

/-- A passing check carrying a given category tag. -/
def sampleCheck (cat : String) : QualityCheck :=
  { name := cat ++ "_check", passed := true, score := 100, message := "ok",
    category := cat, severity := "info" }

/-- A battery whose four categories all score 100. -/
def battEx : CheckBattery :=
  { content := fun _ => [sampleCheck "content"]
    seo := fun _ => [sampleCheck "seo"]
    readability := fun _ => [sampleCheck "readability"]
    eeat := fun _ => [sampleCheck "eeat"] }

/-- A draft whose title contains an Israeli-ID pattern (nine digits). -/
def piiDraft : Draft :=
  { title := "פסק 123456789 דין", metaDescription := "מטא", contentHtml := "<p>תוכן</p>" }

/-- A verdict in `ANALYZED` state. -/
def vAnalyzed : Verdict :=
  { status := VerdictStatus.analyzed, processingProgress := 0,
    processingMessage := "", reviewNotes := none, originalText := "טקסט",
    cleanedText := none, anonymizedText := none, anonymizationReport := none,
    privacyRiskLevel := "low", requiresManualReview := false, keyFacts := none,
    legalQuestions := none, legalPrinciples := none, compensationAmount := none,
    compensationBreakdown := none, relevantLaws := none, precedentsCited := none,
    practicalInsights := none, articles := [] }

def vNew : Verdict := { vAnalyzed with status := VerdictStatus.new }

/-- Environment whose generator always emits the PII-bearing draft, scored
by the real checker over `battEx`, with an active WordPress site. -/
def envLeak : GenEnv :=
  { generate := fun _ _ => piiDraft
    enhanceHtml := fun d => d.contentHtml
    score := fun d => calculateScores battEx d
    wordpressActive := true
    publishOk := true
    existingArticle := false }

/-- Category scores failing only the discoverability (seo) category. -/
def lowSeoScores : Scores := ⟨95, 60, 95, 95, overallWeighted 95 60 95 95⟩

/-- Environment whose drafts always fail the same single category. -/
def envLowSeo : GenEnv :=
  { generate := fun _ _ => ⟨"כותרת", "תיאור", "<p>תוכן</p>"⟩
    enhanceHtml := fun d => d.contentHtml
    score := fun _ => lowSeoScores
    wordpressActive := true
    publishOk := true
    existingArticle := false }

def procBatch : Batch := { initialBatch with status := BatchStatus.processing }

/-- The part contributed to the rejoined output by one chunk: the
anonymized text on success, the original chunk on failure
(anonymizer.py lines 214 and 232). -/
def partFor (single : String → Except String ChunkOut) (c : String) : String :=
  match single c with
  | .ok r => r.anonymizedText
  | .error _ => c

/-- Total character count of a list of pieces. -/
def sumLen (l : List (List Char)) : Nat :=
  (l.map List.length).sum

/-! ## Helper lemmas -/

theorem length_dropWhile_le (p : Char → Bool) (s : List Char) :
    (s.dropWhile p).length ≤ s.length := by
  induction s with
  | nil => simp [List.dropWhile]
  | cons c r ih =>
    simp only [List.dropWhile]
    cases p c
    · simp
    · simp
      omega

theorem length_stripL_le (s : List Char) : (stripL s).length ≤ s.length := by
  unfold stripL
  calc ((s.dropWhile isPySpace).reverse.dropWhile isPySpace).reverse.length
      = ((s.dropWhile isPySpace).reverse.dropWhile isPySpace).length := by
        simp
    _ ≤ (s.dropWhile isPySpace).reverse.length := length_dropWhile_le _ _
    _ = (s.dropWhile isPySpace).length := by simp
    _ ≤ s.length := length_dropWhile_le _ _

/-! ## Claim theorems -/

/-- Claim C2.  The quality-gate decision on a generation attempt is pass if
and only if every one of the four category scores (content, seo,
readability, eeat) is at least the configured threshold 80; in particular a
draft with category scores 95, 60, 95, 95 fails the gate even though its
weighted overall score is 84, which exceeds 80. -/
theorem gate_pass_iff_every_category_at_threshold :
    (∀ s : Scores,
      gateAllPassed s = true ↔
        (minScoreThreshold ≤ s.contentScore ∧ minScoreThreshold ≤ s.seoScore ∧
          minScoreThreshold ≤ s.readabilityScore ∧ minScoreThreshold ≤ s.eeatScore))
    ∧ gateAllPassed ⟨95, 60, 95, 95, overallWeighted 95 60 95 95⟩ = false
    ∧ overallWeighted 95 60 95 95 = 84 ∧ (80 : Int) < 84 := by
  refine ⟨fun s => ?_, by decide, by decide, by decide⟩
  simp [gateAllPassed, minScoreThreshold]

/-- Claim C1.  On the code as written, a draft whose title matches the
Israeli-ID PII pattern is flagged by `_check_privacy` as a failed
error-severity check and the `QualityReport` has `ready_to_publish = False`
with a non-empty critical-issue list — yet `calculate_scores` keeps only
the four category scores (all 100 here, since the PII check is in the
separate "privacy" category), the generation loop's gate passes, and the
draft is saved and auto-published to WordPress.  This refutes the claim
that a PII match hard-fails the gate and blocks publishing. -/
theorem privacy_leak_passes_gate_and_is_published :
    piiClean piiDraft = false
    ∧ (checkAll battEx piiDraft).readyToPublish = false
    ∧ (checkAll battEx piiDraft).criticalIssues ≠ []
    ∧ calculateScores battEx piiDraft = ⟨100, 100, 100, 100, 100⟩
    ∧ gateAllPassed (calculateScores battEx piiDraft) = true
    ∧ (genLoop envLeak maxGenerationAttempts 1 none vAnalyzed).2.2 = 1
    ∧ (genLoop envLeak maxGenerationAttempts 1 none vAnalyzed).2.1.status =
        VerdictStatus.published
    ∧ ((genLoop envLeak maxGenerationAttempts 1 none vAnalyzed).1.map
        (fun a => a.publishStatus)) = Except.ok "published" := by
  decide

/-- Claim C3.  `VerdictStatus` has no `ARTICLE_CREATING` member, so for any
verdict in `ANALYZED` state `generate_article_from_verdict` never returns
an article: it performs zero generation attempts and raises
`ArticleGenerationError` wrapping the `AttributeError` from line 253; and
`BatchWorker._update_batch_statuses` raises the same `AttributeError`
whenever a batch in `PROCESSING` status exists. -/
theorem verdict_status_lacks_article_creating :
    verdictStatusMember "ARTICLE_CREATING" = none
    ∧ (∀ (env : GenEnv) (v : Verdict), v.status = VerdictStatus.analyzed →
        (∀ a : ArticleRec, (generateArticleFromVerdict env v).1 ≠ Except.ok a)
        ∧ (env.existingArticle = false →
          generateArticleFromVerdict env v =
            (Except.error (GenError.articleGenerationError
              "Failed to generate article: ARTICLE_CREATING"), v, 0)))
    ∧ (∀ (remaining : Batch → Nat) (bs : List Batch) (b : Batch),
        b ∈ bs → b.status = BatchStatus.processing →
        updateBatchStatuses remaining bs =
          Except.error (WorkerErr.attributeError "ARTICLE_CREATING")) := by
  refine ⟨rfl, fun env v hv => ?_, fun remaining bs b hb hst => ?_⟩
  · have hm : verdictStatusMember "ARTICLE_CREATING" = none := rfl
    by_cases h : env.existingArticle
    · constructor
      · intro a
        simp [generateArticleFromVerdict, hv, h]
      · intro hfalse
        rw [hfalse] at h
        exact absurd h (by simp)
    · constructor
      · intro a
        simp [generateArticleFromVerdict, hv, h, hm]
      · intro _
        simp [generateArticleFromVerdict, hv, h, hm]
  · have hne : bs.filter (fun b => decide (b.status = BatchStatus.processing)) ≠ [] :=
      List.ne_nil_of_mem (List.mem_filter.mpr ⟨hb, by simp [hst]⟩)
    cases hl : bs.filter (fun b => decide (b.status = BatchStatus.processing)) with
    | nil => exact absurd hl hne
    | cons x xs =>
      simp only [updateBatchStatuses, hl]
      rfl

/-- Witness for C3 at a concrete analyzed verdict, environment, and a
concrete processing batch. -/
theorem verdict_status_lacks_article_creating_witness :
    generateArticleFromVerdict envLowSeo vAnalyzed =
      (Except.error (GenError.articleGenerationError
        "Failed to generate article: ARTICLE_CREATING"), vAnalyzed, 0)
    ∧ updateBatchStatuses (fun _ => 0) [procBatch] =
        Except.error (WorkerErr.attributeError "ARTICLE_CREATING") :=
  ⟨(verdict_status_lacks_article_creating.2.1 envLowSeo vAnalyzed rfl).2 rfl,
   verdict_status_lacks_article_creating.2.2 (fun _ => 0) [procBatch] procBatch
     (by simp) rfl⟩

/-- Claim C6.  With `maxAttempts = 3` and a collaborator whose drafts
always fail the seo category alone, the orchestrator as written performs
zero generate-and-score attempts: it fails on the missing
`ARTICLE_CREATING` enum member before the first attempt.  The retry loop
itself (lines 258-353), were it reached, performs exactly 3 attempts and
raises an `ArticleGenerationError` naming the failing category score
(`SEO=60`), marking the verdict `FAILED` — never a silent success. -/
theorem bounded_retries_broken_by_missing_member :
    (generateArticleFromVerdict envLowSeo vAnalyzed).2.2 = 0
    ∧ (generateArticleFromVerdict envLowSeo vAnalyzed).1 =
        Except.error (GenError.articleGenerationError
          "Failed to generate article: ARTICLE_CREATING")
    ∧ (genLoop envLowSeo maxGenerationAttempts 1 none vAnalyzed).2.2 = 3
    ∧ (genLoop envLowSeo maxGenerationAttempts 1 none vAnalyzed).1 =
        Except.error (GenError.articleGenerationError
          ("Failed to generate article: Article quality below threshold after 3 attempts. " ++
            "Last scores: Content=95, SEO=60, Readability=95, E-E-A-T=95"))
    ∧ (genLoop envLowSeo maxGenerationAttempts 1 none vAnalyzed).2.1.status =
        VerdictStatus.failed
    ∧ gateAllPassed lowSeoScores = false := by
  decide

/-- Claim C9.  A verdict in `NEW` state cannot be moved into analysis:
`analyze_verdict` rejects it with `ValueError` and leaves it unchanged;
and an administrative reset to `EXTRACTED` clears the de-identification
fields, all analysis fields, and deletes all generated articles. -/
theorem new_rejected_and_reset_clears_downstream :
    (∀ (analyzer : String → Except String AnalysisOut) (v : Verdict),
      v.status = VerdictStatus.new →
      analyzeVerdict analyzer v =
        (Except.error "Verdict must be extracted before analysis.", v))
    ∧ (∀ v : Verdict,
        (resetVerdict VerdictStatus.extracted v).anonymizedText = none ∧
        (resetVerdict VerdictStatus.extracted v).anonymizationReport = none ∧
        (resetVerdict VerdictStatus.extracted v).keyFacts = none ∧
        (resetVerdict VerdictStatus.extracted v).legalQuestions = none ∧
        (resetVerdict VerdictStatus.extracted v).legalPrinciples = none ∧
        (resetVerdict VerdictStatus.extracted v).compensationAmount = none ∧
        (resetVerdict VerdictStatus.extracted v).compensationBreakdown = none ∧
        (resetVerdict VerdictStatus.extracted v).relevantLaws = none ∧
        (resetVerdict VerdictStatus.extracted v).precedentsCited = none ∧
        (resetVerdict VerdictStatus.extracted v).practicalInsights = none ∧
        (resetVerdict VerdictStatus.extracted v).articles = [] ∧
        (resetVerdict VerdictStatus.extracted v).reviewNotes = none ∧
        (resetVerdict VerdictStatus.extracted v).status = VerdictStatus.extracted) := by
  constructor
  · intro analyzer v hv
    simp [analyzeVerdict, hv]
  · intro v
    simp [resetVerdict]

/-- Witness for C9 at a concrete `NEW` verdict and concrete analyzer. -/
theorem new_rejected_and_reset_clears_downstream_witness :
    analyzeVerdict (fun _ => Except.error "x") vNew =
      (Except.error "Verdict must be extracted before analysis.", vNew)
    ∧ (resetVerdict VerdictStatus.extracted vAnalyzed).status =
        VerdictStatus.extracted :=
  ⟨new_rejected_and_reset_clears_downstream.1 (fun _ => Except.error "x") vNew rfl,
   ((new_rejected_and_reset_clears_downstream.2 vAnalyzed).2.2.2.2.2.2.2.2.2.2.2.2)⟩

/-- Counterexample for C4.  The round trip is not lossless: the chunker
normalizes line endings before splitting, so rejoining the chunks of
`"a\r\nb"` with their separator yields `"a\nb"`, not the input. -/
theorem chunk_roundtrip_not_lossless :
    splitIntoChunks maxChunkSize "a\r\nb" = ["a\nb"]
    ∧ joinStrings "\n\n" (splitIntoChunks maxChunkSize "a\r\nb") ≠ "a\r\nb" := by
  decide

/-- Counterexample for C7.  With bound `S = 3`, the text `"aaaa"` of length
`S + 1` is a single unbreakable word, so the split yields one (oversized)
chunk, not at least two; and the force-split path can even emit an empty
chunk: `"aaaa. "` splits into `["aaaa.", ""]`. -/
theorem chunk_boundary_counterexample :
    splitIntoChunks 3 "aaaa" = ["aaaa"]
    ∧ ("aaaa" : String).length = 3 + 1
    ∧ ¬ 2 ≤ (splitIntoChunks 3 "aaaa").length
    ∧ splitIntoChunks 3 "aaaa. " = ["aaaa.", ""]
    ∧ "" ∈ splitIntoChunks 3 "aaaa. " := by
  decide

/-- Counterexample for C5.  Adding a duplicate file to a fresh batch
increments `skipped_files` without touching `processed_files`, so the
claimed equation `processed = successful + failed + skipped` fails. -/
theorem batch_skipped_not_counted_as_processed :
    (applyBatchOp (BatchOp.addFiles 0 1 0 0) initialBatch).skippedFiles = 1
    ∧ (applyBatchOp (BatchOp.addFiles 0 1 0 0) initialBatch).processedFiles = 0
    ∧ ¬ ((applyBatchOp (BatchOp.addFiles 0 1 0 0) initialBatch).processedFiles =
        (applyBatchOp (BatchOp.addFiles 0 1 0 0) initialBatch).successfulFiles +
        (applyBatchOp (BatchOp.addFiles 0 1 0 0) initialBatch).failedFiles +
        (applyBatchOp (BatchOp.addFiles 0 1 0 0) initialBatch).skippedFiles) := by
  decide

theorem applyBatchOp_preserves_inv (op : BatchOp) (b : Batch)
    (h : batchCountersInv b) : batchCountersInv (applyBatchOp op b) := by
  obtain ⟨he, ht, hp, hs, hf, hk⟩ := h
  cases op with
  | addFiles a d i e =>
    simp only [applyBatchOp, batchCountersInv]
    split
    · exact ⟨he, ht, hp, hs, hf, hk⟩
    · split
      · exact ⟨he, ht, hp, hs, hf, hk⟩
      · refine ⟨he, ?_, hp, hs, hf, ?_⟩ <;> dsimp only <;> omega
  | updateProgress success err =>
    simp only [applyBatchOp, batchCountersInv]
    cases success <;> simp only [Bool.false_eq_true, if_true, if_false] <;>
      split <;> refine ⟨?_, ht, ?_, ?_, ?_, hk⟩ <;> dsimp only <;> omega
  | startProcessing =>
    simp only [applyBatchOp, batchCountersInv]
    split
    · exact ⟨he, ht, hp, hs, hf, hk⟩
    · exact ⟨he, ht, hp, hs, hf, hk⟩
  | cancel =>
    simp only [applyBatchOp, batchCountersInv]
    split
    · exact ⟨he, ht, hp, hs, hf, hk⟩
    · exact ⟨he, ht, hp, hs, hf, hk⟩

theorem applyBatchOps_preserves_inv (ops : List BatchOp) (b : Batch)
    (h : batchCountersInv b) : batchCountersInv (applyBatchOps ops b) := by
  induction ops generalizing b with
  | nil => exact h
  | cons op rest ih => exact ih _ (applyBatchOp_preserves_inv op b h)

/-- Amended C5.  In every batch state reachable from a fresh batch through
the core operations, the five counters are non-negative and
`processed = successful + failed` holds; `skipped` counts duplicate
uploads recorded at add-time and is not part of `processed`. -/
theorem batch_counters_invariant (ops : List BatchOp) :
    batchCountersInv (applyBatchOps ops initialBatch) :=
  applyBatchOps_preserves_inv ops initialBatch (by decide)

theorem procChunks_parts (single : String → Except String ChunkOut)
    (cs : List String) (idx : Nat) (st : ChunkSt) :
    (procChunks single cs idx st).parts = st.parts ++ cs.map (partFor single) := by
  induction cs generalizing idx st with
  | nil => simp [procChunks]
  | cons c rest ih =>
    cases hsc : single c with
    | ok r =>
      simp [procChunks, hsc, ih, partFor, List.append_assoc]
    | error e =>
      simp [procChunks, hsc, ih, partFor, List.append_assoc]

theorem procChunks_review_mono (single : String → Except String ChunkOut)
    (cs : List String) (idx : Nat) (st : ChunkSt) (h : st.review = true) :
    (procChunks single cs idx st).review = true := by
  induction cs generalizing idx st with
  | nil => simpa [procChunks] using h
  | cons c rest ih =>
    cases hsc : single c with
    | ok r => simp only [procChunks, hsc]; exact ih _ _ (by simp [h])
    | error e => simp only [procChunks, hsc]; exact ih _ _ (by simp)

theorem procChunks_review_of_error (single : String → Except String ChunkOut)
    (cs : List String) (i idx : Nat) (c : String) (e : String)
    (hget : cs.get? i = some c) (herr : single c = .error e) (st : ChunkSt) :
    (procChunks single cs idx st).review = true := by
  induction cs generalizing i idx st with
  | nil => simp at hget
  | cons c0 rest ih =>
    cases i with
    | zero =>
      simp only [List.get?] at hget
      injection hget with hc
      subst hc
      simp only [procChunks, herr]
      exact procChunks_review_mono single rest (idx + 1) _ (by simp)
    | succ j =>
      simp only [List.get?] at hget
      cases hsc : single c0 with
      | ok r => simp only [procChunks, hsc]; exact ih j (idx + 1) hget _
      | error e0 => simp only [procChunks, hsc]; exact ih j (idx + 1) hget _

theorem procChunks_notes_mono (single : String → Except String ChunkOut)
    (cs : List String) (idx : Nat) (st : ChunkSt) (x : String)
    (h : x ∈ st.notes) : x ∈ (procChunks single cs idx st).notes := by
  induction cs generalizing idx st with
  | nil => simpa [procChunks] using h
  | cons c rest ih =>
    cases hsc : single c with
    | ok r =>
      simp only [procChunks, hsc]
      exact ih _ _ (by simp [h])
    | error e =>
      simp only [procChunks, hsc]
      exact ih _ _ (by simp [h])

theorem procChunks_note_of_error (single : String → Except String ChunkOut)
    (cs : List String) (i idx : Nat) (c : String) (e : String)
    (hget : cs.get? i = some c) (herr : single c = .error e) (st : ChunkSt) :
    noteFail (idx + i + 1) e ∈ (procChunks single cs idx st).notes := by
  induction cs generalizing i idx st with
  | nil => simp at hget
  | cons c0 rest ih =>
    cases i with
    | zero =>
      simp only [List.get?] at hget
      injection hget with hc
      subst hc
      simp only [procChunks, herr]
      exact procChunks_notes_mono single rest (idx + 1) _ _ (by simp)
    | succ j =>
      simp only [List.get?] at hget
      have harith : idx + (j + 1) + 1 = (idx + 1) + j + 1 := by omega
      rw [harith]
      cases hsc : single c0 with
      | ok r => simp only [procChunks, hsc]; exact ih j (idx + 1) hget _
      | error e0 => simp only [procChunks, hsc]; exact ih j (idx + 1) hget _

theorem joinL_mem_infix (sep : List Char) (l : List (List Char)) (x : List Char)
    (h : x ∈ l) : ∃ pre post, joinL sep l = pre ++ x ++ post := by
  induction l with
  | nil => simp at h
  | cons a rest ih =>
    cases rest with
    | nil =>
      simp at h
      subst h
      exact ⟨[], [], by simp [joinL]⟩
    | cons b r =>
      rcases List.mem_cons.mp h with hx | hx
      · subst hx
        exact ⟨[], sep ++ joinL sep (b :: r), by simp [joinL]⟩
      · obtain ⟨pre, post, hj⟩ := ih hx
        exact ⟨a ++ sep ++ pre, post, by simp [joinL, hj]⟩

/-- Claim C10.  When anonymizing a text longer than the chunk bound, a
chunk whose anonymization fails after all retries does not make
`anonymize` raise: the chunked result is returned, the failing chunk's
original text appears verbatim in the rejoined `anonymized_text`,
`requires_review` is `True`, and the failure note for that chunk is
recorded in `review_notes`. -/
theorem failed_chunk_kept_verbatim (S : Nat)
    (single : String → Except String ChunkOut) (text : String) (i : Nat)
    (e : String) (hne : stripPy text ≠ "") (hlen : S < text.length)
    (hi : i < (splitIntoChunks S text).length)
    (herr : single ((splitIntoChunks S text).get ⟨i, hi⟩) = .error e) :
    anonymize S single text = .ok (anonymizeChunked S single text)
    ∧ (anonymizeChunked S single text).requiresReview = true
    ∧ (∃ pre post, (anonymizeChunked S single text).anonymizedText.data =
        pre ++ ((splitIntoChunks S text).get ⟨i, hi⟩).data ++ post)
    ∧ (∃ pre post, (anonymizeChunked S single text).reviewNotes.data =
        pre ++ (noteFail (i + 1) e).data ++ post) := by
  have hget : (splitIntoChunks S text).get? i =
      some ((splitIntoChunks S text).get ⟨i, hi⟩) := List.get?_eq_get hi
  have hnotes : noteFail (i + 1) e ∈
      (procChunks single (splitIntoChunks S text) 0 ⟨[], [], "low", false, []⟩).notes := by
    have := procChunks_note_of_error single (splitIntoChunks S text) i 0
      ((splitIntoChunks S text).get ⟨i, hi⟩) e hget herr ⟨[], [], "low", false, []⟩
    simpa using this
  refine ⟨?_, ?_, ?_, ?_⟩
  · simp [anonymize, hne, hlen]
  · exact procChunks_review_of_error single (splitIntoChunks S text) i 0
      ((splitIntoChunks S text).get ⟨i, hi⟩) e hget herr _
  · have hmem : ((splitIntoChunks S text).get ⟨i, hi⟩) ∈
        (procChunks single (splitIntoChunks S text) 0 ⟨[], [], "low", false, []⟩).parts := by
      rw [procChunks_parts]
      refine List.mem_append_right _ ?_
      exact List.mem_map.mpr ⟨(splitIntoChunks S text).get ⟨i, hi⟩,
        List.get_mem _ _ _, by unfold partFor; rw [herr]⟩
    obtain ⟨pre, post, hj⟩ :=
      joinL_mem_infix "\n\n".data _ _ (List.mem_map_of_mem String.data hmem)
    exact ⟨pre, post, hj⟩
  · have hempty : (procChunks single (splitIntoChunks S text) 0
        ⟨[], [], "low", false, []⟩).notes.isEmpty = false := by
      cases hcase : (procChunks single (splitIntoChunks S text) 0
          ⟨[], [], "low", false, []⟩).notes with
      | nil => rw [hcase] at hnotes; simp at hnotes
      | cons a l => simp [hcase]
    obtain ⟨pre, post, hj⟩ :=
      joinL_mem_infix "\n".data _ _ (List.mem_map_of_mem String.data hnotes)
    refine ⟨pre, post, ?_⟩
    show (if (procChunks single (splitIntoChunks S text) 0
        ⟨[], [], "low", false, []⟩).notes.isEmpty then "" else
        joinStrings "\n" (procChunks single (splitIntoChunks S text) 0
          ⟨[], [], "low", false, []⟩).notes).data = _
    rw [hempty]
    simpa [joinStrings] using hj

/-- Witness for C10: bound 4, text `"aaaaa"` (one oversized chunk), and a
collaborator that always fails. -/
theorem failed_chunk_kept_verbatim_witness :
    (splitIntoChunks 4 "aaaaa").length = 1
    ∧ anonymize 4 (fun _ => Except.error "boom") "aaaaa" =
        .ok (anonymizeChunked 4 (fun _ => Except.error "boom") "aaaaa")
    ∧ (anonymizeChunked 4 (fun _ => Except.error "boom") "aaaaa").requiresReview =
        true := by
  refine ⟨by decide, ?_, ?_⟩
  · exact (failed_chunk_kept_verbatim 4 (fun _ => Except.error "boom") "aaaaa" 0
      "boom" (by decide) (by decide) (by decide) rfl).1
  · exact (failed_chunk_kept_verbatim 4 (fun _ => Except.error "boom") "aaaaa" 0
      "boom" (by decide) (by decide) (by decide) rfl).2.1

/-- Claim C8.  `safe_parse_json` is a total function (the embedded form of
"never raises"): it returns the direct parse whenever that succeeds, and
it returns the sentinel `none` exactly when the input is blank or all four
strategies — direct parse, repair, control-character stripping + repair,
prefix stripping + repair (attempted only when `find('{') > 0`) — fail. -/
theorem safe_parse_json_cascade {α : Type} (loads : String → Option α) (s : String) :
    (safeParseJson loads s = none ↔
      (stripPy s = "" ∨
        (loads s = none ∧ loads (repairJson s) = none ∧
          loads (repairJson (stripCtrlStr s)) = none ∧
          (¬ braceStart s > 0 ∨ loads (repairJson (dropFromBrace s)) = none))))
    ∧ (∀ v : α, stripPy s ≠ "" → loads s = some v →
        safeParseJson loads s = some v) := by
  constructor
  · by_cases hb : stripPy s = ""
    · simp [safeParseJson, hb]
    · cases h1 : loads s with
      | some v => simp [safeParseJson, hb, h1]
      | none =>
        cases h2 : loads (repairJson s) with
        | some v => simp [safeParseJson, hb, h1, h2]
        | none =>
          cases h3 : loads (repairJson (stripCtrlStr s)) with
          | some v => simp [safeParseJson, hb, h1, h2, h3]
          | none =>
            by_cases h4 : braceStart s > 0
            · cases h5 : loads (repairJson (dropFromBrace s)) with
              | some v => simp [safeParseJson, hb, h1, h2, h3, h4, h5]
              | none => simp [safeParseJson, hb, h1, h2, h3, h4, h5]
            · simp [safeParseJson, hb, h1, h2, h3, h4]
  · intro v hb h1
    simp [safeParseJson, hb, h1]

/-- Witness for C8 with a concrete parser: the direct-parse success is
returned as-is, and an input failing every strategy yields the sentinel. -/
theorem safe_parse_json_cascade_witness :
    safeParseJson (fun t => if t = "yes" then some 1 else none) "yes" = some 1
    ∧ safeParseJson (fun t => if t = "yes" then some 1 else none) "no" = none := by
  constructor
  · exact (safe_parse_json_cascade (fun t => if t = "yes" then some 1 else none)
      "yes").2 1 (by decide) (by decide)
  · exact (safe_parse_json_cascade (fun t => if t = "yes" then some 1 else none)
      "no").1.mpr (by decide)

theorem length_takeWhile_le (p : Char → Bool) (s : List Char) :
    (s.takeWhile p).length ≤ s.length := by
  induction s with
  | nil => simp [List.takeWhile]
  | cons c r ih =>
    simp only [List.takeWhile]
    cases p c
    · simp
    · simp
      omega


theorem takeWhile_ne_lt_of_mem (a : Char) (l : List Char) (h : a ∈ l) :
    (l.takeWhile (· ≠ a)).length < l.length := by
  induction l with
  | nil => simp at h
  | cons c r ih =>
    by_cases hc : c = a
    · subst hc
      simp [List.takeWhile_cons]
    · rcases List.mem_cons.mp h with h1 | h1
      · exact absurd h1.symm hc
      · rw [List.takeWhile_cons, if_pos (by simp [hc])]
        simp only [List.length_cons]
        have := ih h1
        omega

theorem sumLen_cons (p : List Char) (l : List (List Char)) :
    sumLen (p :: l) = p.length + sumLen l := by
  simp [sumLen]

theorem replaceCRLF_length_le : ∀ (s : List Char),
    (replaceCRLF s).length ≤ s.length
  | [] => by simp [replaceCRLF]
  | [c] => by simp [replaceCRLF]
  | c :: d :: r => by
    by_cases h : c = '\r' ∧ d = '\n'
    · have ih := replaceCRLF_length_le r
      simp only [replaceCRLF, if_pos h, List.length_cons]
      omega
    · have ih := replaceCRLF_length_le (d :: r)
      simp only [replaceCRLF, if_neg h, List.length_cons]
      simp only [List.length_cons] at ih
      omega

theorem replaceCR_length (s : List Char) : (replaceCR s).length = s.length := by
  simp [replaceCR]

theorem findSep_some_length (s : List Char) (pre post : List Char)
    (h : findSep s = some (pre, post)) :
    pre.length + post.length + 2 ≤ s.length := by
  induction s generalizing pre post with
  | nil => simp [findSep] at h
  | cons c r ih =>
    by_cases hc : c = '\n' ∧ (r.takeWhile isPySpace).contains '\n'
    · rw [findSep, if_pos hc] at h
      injection h with hpair
      injection hpair with h1 h2
      have hmem : '\n' ∈ r.takeWhile isPySpace := by
        have := hc.2
        simpa [List.contains] using this
      have hlt : ((r.takeWhile isPySpace).reverse.takeWhile (· ≠ '\n')).length <
          (r.takeWhile isPySpace).length := by
        have := takeWhile_ne_lt_of_mem '\n' (r.takeWhile isPySpace).reverse
          (by simpa using hmem)
        simpa using this
      have hws : (r.takeWhile isPySpace).length ≤ r.length := length_takeWhile_le _ _
      have hdrop : (r.drop (r.takeWhile isPySpace).length).length =
          r.length - (r.takeWhile isPySpace).length := List.length_drop _ _
      subst h1
      subst h2
      simp only [List.length_append, List.length_nil, List.length_cons, afterLastNL,
        List.length_reverse]
      omega
    · rw [findSep, if_neg hc] at h
      cases hr : findSep r with
      | none => rw [hr] at h; simp at h
      | some pq =>
        obtain ⟨p2, q2⟩ := pq
        rw [hr] at h
        simp only [Option.map_some] at h
        injection h with hpair
        injection hpair with h1 h2
        have hih := ih p2 q2 hr
        subst h1
        subst h2
        simp only [List.length_cons]
        omega

theorem paraSplitF_measure (fuel : Nat) :
    ∀ (s : List Char), s.length < fuel →
    sumLen (paraSplitF fuel s) + 2 * (paraSplitF fuel s).length ≤ s.length + 2 := by
  induction fuel with
  | zero => intro s hs; omega
  | succ f ih =>
    intro s hs
    cases hsep : findSep s with
    | none =>
      simp only [paraSplitF, hsep, sumLen_cons, List.length_cons]
      simp [sumLen]
    | some pq =>
      obtain ⟨pre, post⟩ := pq
      have hlen := findSep_some_length s pre post hsep
      have hpost : post.length < f := by omega
      have hrec := ih post hpost
      simp only [paraSplitF, hsep, sumLen_cons, List.length_cons]
      omega

theorem stripFilter_measure (ps : List (List Char)) :
    sumLen ((ps.map stripL).filter (fun p => ¬ p.isEmpty)) +
      2 * ((ps.map stripL).filter (fun p => ¬ p.isEmpty)).length ≤
    sumLen ps + 2 * ps.length := by
  induction ps with
  | nil => simp [sumLen]
  | cons p rest ih =>
    have hle := length_stripL_le p
    simp only [List.map_cons, List.filter_cons]
    by_cases hempty : (stripL p).isEmpty = true
    · rw [if_neg (by simp [hempty])]
      simp only [sumLen_cons, List.length_cons]
      omega
    · rw [if_pos (by simp [hempty])]
      simp only [sumLen_cons, List.length_cons]
      omega

theorem paragraphs_measure (t : List Char) :
    sumLen (paragraphsOfL t) + 2 * (paragraphsOfL t).length ≤ t.length + 2 := by
  unfold paragraphsOfL
  dsimp only
  have h1 : (replaceCR (replaceCRLF t)).length ≤ t.length := by
    rw [replaceCR_length]
    exact replaceCRLF_length_le t
  have h2 := paraSplitF_measure ((replaceCR (replaceCRLF t)).length + 1)
    (replaceCR (replaceCRLF t)) (by omega)
  have h3 := stripFilter_measure (paraSplitF ((replaceCR (replaceCRLF t)).length + 1)
    (replaceCR (replaceCRLF t)))
  omega

theorem isEmpty_false_of_ne_nil {α : Type} (l : List α) (h : l ≠ []) :
    ¬ (l.isEmpty = true) := by
  cases l with
  | nil => exact absurd rfl h
  | cons a r => simp

theorem joinL_cons_ne (sep a : List Char) (l : List (List Char)) (h : l ≠ []) :
    joinL sep (a :: l) = a ++ sep ++ joinL sep l := by
  cases l with
  | nil => exact absurd rfl h
  | cons b r => rfl

theorem joinL_append (sep : List Char) :
    ∀ (xs ys : List (List Char)), xs ≠ [] → ys ≠ [] →
    joinL sep (xs ++ ys) = joinL sep xs ++ sep ++ joinL sep ys := by
  intro xs
  induction xs with
  | nil => intro ys h hy; exact absurd rfl h
  | cons a rest ih =>
    intro ys _ hy
    cases rest with
    | nil =>
      cases ys with
      | nil => exact absurd rfl hy
      | cons b r => simp [joinL]
    | cons a2 rest2 =>
      have hrec := ih ys (by simp) hy
      simp only [List.cons_append] at hrec ⊢
      rw [joinL_cons_ne sep a (a2 :: (rest2 ++ ys)) (by simp),
        joinL_cons_ne sep a (a2 :: rest2) (by simp)]
      rw [hrec]
      simp [List.append_assoc]

theorem buildChunksL_single (S : Nat) :
    ∀ (ps cur : List (List Char)) (size : Nat), cur ≠ [] → 3 ≤ size →
    size + sumLen ps + 2 * ps.length ≤ S + 2 →
    buildChunksL S ps cur size = [joinL nl2 (cur ++ ps)] := by
  intro ps
  induction ps with
  | nil =>
    intro cur size hcur _ _
    simp only [buildChunksL]
    rw [if_neg (isEmpty_false_of_ne_nil cur hcur)]
    simp
  | cons p ps' ih =>
    intro cur size hcur hsz hms
    simp only [sumLen_cons, List.length_cons] at hms
    have h1 : ¬ p.length > S := by omega
    have h2 : ¬ (size + p.length > S ∧ ¬ cur.isEmpty = true) := by
      intro hcontra
      have := hcontra.1
      omega
    simp only [buildChunksL]
    rw [if_neg h1, if_neg h2]
    rw [ih (cur ++ [p]) (size + p.length + 2) (by simp) (by omega) (by omega)]
    simp [List.append_assoc]

theorem buildChunksL_ne_nil (S : Nat) :
    ∀ (ps cur : List (List Char)) (size : Nat), cur ≠ [] →
    (∀ p ∈ ps, p.length ≤ S) →
    buildChunksL S ps cur size ≠ [] := by
  intro ps
  induction ps with
  | nil =>
    intro cur size hcur _
    simp only [buildChunksL]
    rw [if_neg (isEmpty_false_of_ne_nil cur hcur)]
    simp
  | cons p ps' ih =>
    intro cur size hcur hall
    have h1 : ¬ p.length > S := by
      have := hall p (by simp)
      omega
    simp only [buildChunksL]
    rw [if_neg h1]
    by_cases h2 : size + p.length > S ∧ ¬ cur.isEmpty = true
    · rw [if_pos h2]
      simp
    · rw [if_neg h2]
      exact ih (cur ++ [p]) _ (by simp) (fun q hq => hall q (by simp [hq]))

theorem buildChunksL_join (S : Nat) :
    ∀ (ps cur : List (List Char)) (size : Nat), cur ≠ [] →
    (∀ p ∈ ps, p.length ≤ S) →
    joinL nl2 (buildChunksL S ps cur size) = joinL nl2 (cur ++ ps) := by
  intro ps
  induction ps with
  | nil =>
    intro cur size hcur _
    simp only [buildChunksL]
    rw [if_neg (isEmpty_false_of_ne_nil cur hcur)]
    simp [joinL]
  | cons p ps' ih =>
    intro cur size hcur hall
    have h1 : ¬ p.length > S := by
      have := hall p (by simp)
      omega
    simp only [buildChunksL]
    rw [if_neg h1]
    by_cases h2 : size + p.length > S ∧ ¬ cur.isEmpty = true
    · rw [if_pos h2]
      have hne := buildChunksL_ne_nil S ps' [p] p.length (by simp)
        (fun q hq => hall q (by simp [hq]))
      rw [joinL_cons_ne nl2 (joinL nl2 cur) _ hne]
      rw [ih [p] p.length (by simp) (fun q hq => hall q (by simp [hq]))]
      simp only [List.cons_append, List.nil_append]
      rw [← joinL_append nl2 cur (p :: ps') hcur (by simp)]
    · rw [if_neg h2]
      rw [ih (cur ++ [p]) _ (by simp) (fun q hq => hall q (by simp [hq]))]
      simp [List.append_assoc]

/-- Amended C7.  Any text of length at most the bound yields exactly one
chunk (in particular a text of length exactly `S`).  The other two parts
of the claim fail on the code (see the counterexample): a text of length
`S + 1` can still be a single chunk when it has no splittable boundary,
and the force-split path can emit an empty chunk after a trailing
sentence separator. -/
theorem split_within_bound_single_chunk (S : Nat) (t : String)
    (h : t.length ≤ S) : (splitIntoChunks S t).length = 1 := by
  unfold splitIntoChunks
  rw [List.length_map]
  unfold splitChunksL
  dsimp only
  have hlen : t.data.length ≤ S := h
  have hcond : ¬ ((paragraphsOfL t.data).length ≤ 1 ∧ t.data.length > S) := by
    intro hcontra
    have := hcontra.2
    omega
  rw [if_neg hcond]
  have hm := paragraphs_measure t.data
  cases hps : paragraphsOfL t.data with
  | nil =>
    simp [buildChunksL]
  | cons p ps' =>
    rw [hps] at hm
    have hmem : p ∈ paragraphsOfL t.data := by
      rw [hps]
      simp
    have hplen : 1 ≤ p.length := by
      unfold paragraphsOfL at hmem
      dsimp only at hmem
      have hdec := (List.mem_filter.mp hmem).2
      cases hp : p with
      | nil => rw [hp] at hdec; simp at hdec
      | cons c r => simp
    simp only [sumLen_cons, List.length_cons] at hm
    have h1 : ¬ p.length > S := by omega
    simp only [buildChunksL]
    rw [if_neg h1]
    simp only [List.isEmpty_nil, not_true_eq_false, and_false, if_false,
      List.nil_append]
    rw [buildChunksL_single S ps' [p] (0 + p.length + 2) (by simp) (by omega)
      (by omega)]
    simp

/-- Witness for the amended C7 at a concrete multi-paragraph text of
length equal to the bound. -/
theorem split_within_bound_single_chunk_witness :
    (splitIntoChunks 8 "aa\n\nbb").length = 1 ∧ ("aa" ++ "\n\n" ++ "bb" : String).length = 6 :=
  ⟨split_within_bound_single_chunk 8 "aa\n\nbb" (by decide), by decide⟩

/-- Amended C4.  The chunker's round trip is lossless only for normalized
text: whenever `t` already equals the `"\n\n"`-join of its stripped
non-empty paragraphs and every paragraph fits the bound, rejoining the
chunks with the separator used by `_anonymize_chunked` reproduces `t`
exactly.  In general the rejoined text is that normalized form, not `t`
(see the counterexample). -/
theorem split_roundtrip_normalized (S : Nat) (t : String)
    (hnorm : joinStrings "\n\n" (parasOf t) = t)
    (hsize : ∀ p ∈ parasOf t, p.length ≤ S) :
    joinStrings "\n\n" (splitIntoChunks S t) = t := by
  have hcomp : (String.data ∘ String.mk) = id := rfl
  have hnormL : joinL nl2 (paragraphsOfL t.data) = t.data := by
    have h0 := congrArg String.data hnorm
    simp only [joinStrings, parasOf, List.map_map] at h0
    rw [hcomp, List.map_id] at h0
    exact h0
  have hsizeL : ∀ p ∈ paragraphsOfL t.data, p.length ≤ S := by
    intro p hp
    exact hsize (String.mk p) (List.mem_map_of_mem String.mk hp)
  suffices hmain : joinL nl2 (splitChunksL S t.data) = t.data by
    show joinStrings "\n\n" ((splitChunksL S t.data).map String.mk) = t
    have ht : t = String.mk t.data := rfl
    rw [ht]
    simp only [joinStrings, List.map_map]
    rw [hcomp, List.map_id]
    exact congrArg String.mk hmain
  unfold splitChunksL
  dsimp only
  cases hps : paragraphsOfL t.data with
  | nil =>
    rw [hps] at hnormL
    have ht : t.data = [] := by simpa [joinL] using hnormL.symm
    have hcond : ¬ (([] : List (List Char)).length ≤ 1 ∧ t.data.length > S) := by
      intro hcontra
      rw [ht] at hcontra
      simp at hcontra
    rw [if_neg hcond]
    simp [buildChunksL, joinL, ht]
  | cons p ps' =>
    rw [hps] at hnormL
    have hp1 : p.length ≤ S := hsizeL p (by rw [hps]; simp)
    have hall : ∀ q ∈ ps', q.length ≤ S := fun q hq =>
      hsizeL q (by rw [hps]; simp [hq])
    have hcond : ¬ ((p :: ps').length ≤ 1 ∧ t.data.length > S) := by
      intro hcontra
      cases ps' with
      | nil =>
        have ht : t.data = p := by simpa [joinL] using hnormL.symm
        have := hcontra.2
        rw [ht] at this
        omega
      | cons q r =>
        have := hcontra.1
        simp at this
    rw [if_neg hcond]
    have h1 : ¬ p.length > S := by omega
    simp only [buildChunksL]
    rw [if_neg h1]
    simp only [List.isEmpty_nil, not_true_eq_false, and_false, if_false,
      List.nil_append]
    have hne := buildChunksL_ne_nil S ps' [p] (0 + p.length + 2) (by simp) hall
    rw [if_neg (isEmpty_false_of_ne_nil _ hne)]
    rw [buildChunksL_join S ps' [p] (0 + p.length + 2) (by simp) hall]
    simpa using hnormL

/-- Witness for the amended C4 at a concrete normalized three-paragraph
text with a small bound. -/
theorem split_roundtrip_normalized_witness :
    joinStrings "\n\n" (splitIntoChunks 5 "aa\n\nbb\n\ncc") = "aa\n\nbb\n\ncc" :=
  split_roundtrip_normalized 5 "aa\n\nbb\n\ncc" (by decide) (by decide)
